import Mathlib

/-!
Verification of the typed-table core (`mmcif/api/DataCategoryTyped.py`).

The development shallowly embeds the `DataCategoryTyped` class: dynamically
typed cell values become the inductive type `Val`; Python floats are
idealised as rationals extended with a NaN element (`PyFloat`); the injected
dictionary-API collaborator becomes a record of fallible lookup functions
(`Option` models a raised exception); the Python builtins `int`, `float`,
`str` are parameterised by a `PyPrims` record (their string-parsing and
string-rendering behaviour), with the dispatch logic of the source translated
faithfully on top of it.  Mutating loops become explicit state passing.
-/

/-- Python float values, idealised: finite floats are rationals, plus the
IEEE NaN element.  Comparisons involving NaN are false, arithmetic involving
NaN yields NaN, and NaN is not equal to itself, matching IEEE semantics. -/
inductive PyFloat where
  | fin (q : ℚ)
  | nan
  deriving DecidableEq

/-- Python equality on floats: NaN compares unequal to everything. -/
def PyFloat.beq : PyFloat → PyFloat → Bool
  | .fin a, .fin b => a == b
  | _, _ => false

/-- Python strict order on floats: false whenever NaN is involved. -/
def PyFloat.blt : PyFloat → PyFloat → Bool
  | .fin a, .fin b => decide (a < b)
  | _, _ => false

/-- Python non-strict order on floats: false whenever NaN is involved. -/
def PyFloat.ble : PyFloat → PyFloat → Bool
  | .fin a, .fin b => decide (a ≤ b)
  | _, _ => false

/-- Python strict greater-than on floats. -/
def PyFloat.bgt (a b : PyFloat) : Bool := PyFloat.blt b a

/-- Subtraction; NaN propagates. -/
def PyFloat.sub : PyFloat → PyFloat → PyFloat
  | .fin a, .fin b => .fin (a - b)
  | _, _ => .nan

/-- Multiplication; NaN propagates. -/
def PyFloat.mul : PyFloat → PyFloat → PyFloat
  | .fin a, .fin b => .fin (a * b)
  | _, _ => .nan

/-- Absolute value; NaN propagates. -/
def PyFloat.abs : PyFloat → PyFloat
  | .fin a => .fin |a|
  | .nan => .nan

/-- Python `max(a, b)`: returns `b` only when `b > a`, so the first argument
wins when the comparison is false (the NaN quirk of Python `max`). -/
def PyFloat.pymax (a b : PyFloat) : PyFloat := if PyFloat.bgt b a then b else a

/-- A dynamically typed Python value as it occurs in a table cell: an
integer, a float, a string, or `None`. -/
inductive Val where
  | vInt (n : ℤ)
  | vFloat (f : PyFloat)
  | vStr (s : String)
  | vNone
  deriving DecidableEq

/-- Python `==` between cell values: numeric cross-type equality holds,
`None` equals only `None`, different categories are unequal (not an error). -/
def pyEq : Val → Val → Bool
  | .vInt a, .vInt b => a == b
  | .vInt a, .vFloat b => PyFloat.beq (.fin (a : ℚ)) b
  | .vFloat a, .vInt b => PyFloat.beq a (.fin (b : ℚ))
  | .vFloat a, .vFloat b => PyFloat.beq a b
  | .vStr a, .vStr b => a == b
  | .vNone, .vNone => true
  | _, _ => false

/-- Python `<` between cell values: defined for numbers and for pairs of
strings, a `TypeError` (modelled as `Except.error`) otherwise. -/
def pyLt : Val → Val → Except Unit Bool
  | .vInt a, .vInt b => .ok (decide (a < b))
  | .vInt a, .vFloat b => .ok (PyFloat.blt (.fin (a : ℚ)) b)
  | .vFloat a, .vInt b => .ok (PyFloat.blt a (.fin (b : ℚ)))
  | .vFloat a, .vFloat b => .ok (PyFloat.blt a b)
  | .vStr a, .vStr b => .ok (decide (a < b))
  | _, _ => .error ()

/-- Python `==` between two lists of cell values: equal lengths and
elementwise `==`. -/
def pyListEq : List Val → List Val → Bool
  | [], [] => true
  | x :: xs, y :: ys => pyEq x y && pyListEq xs ys
  | _, _ => false

/-- Insert a value into a sorted list using the fallible Python `<`;
models one step of Python `sorted`. -/
def pyInsert (v : Val) : List Val → Except Unit (List Val)
  | [] => .ok [v]
  | w :: rest => do
    let lt ← pyLt v w
    if lt then
      .ok (v :: w :: rest)
    else do
      let tail ← pyInsert v rest
      .ok (w :: tail)

/-- Python `sorted` over cell values, modelled as insertion sort with the
fallible element comparison: on lists whose elements are incomparable it
raises `TypeError`, exactly as the builtin does. -/
def pySorted : List Val → Except Unit (List Val)
  | [] => .ok []
  | v :: rest => do
    let s ← pySorted rest
    pyInsert v s

/-- The guard of the casting passes: the cell `is None` or equals one of the
reserved markers "." / "?" under Python `==`. -/
def isMissingCell (c : Val) : Bool :=
  c == Val.vNone || pyEq c (Val.vStr ".") || pyEq c (Val.vStr "?")

/-- The three-way type classification computed by `__getAttributeInfo`
(the Python code represents it by the strings "integer", "float",
"string"). -/
inductive DType where
  | integer
  | float
  | string
  deriving DecidableEq

/-- Interface to the Python builtins `int`, `float`, `str` on strings and
numbers: string parsing and string rendering are external builtin behaviour,
so they are parameters of the embedding; `none` models a raised exception. -/
structure PyPrims where
  parseIntStr : String → Option ℤ
  parseFloatStr : String → Option PyFloat
  strOfInt : ℤ → String
  strOfFloat : PyFloat → String

/-- Python `int(f)` for a float `f`: truncation toward zero; NaN raises. -/
def pyFloatToInt : PyFloat → Option ℤ
  | .fin q => some (if 0 ≤ q then ⌊q⌋ else ⌈q⌉)
  | .nan => none

/-- Python `str(v)` for a cell value; total. -/
def pyStrFun (p : PyPrims) : Val → String
  | .vStr s => s
  | .vInt n => p.strOfInt n
  | .vFloat f => p.strOfFloat f
  | .vNone => "None"

/-- The cast table `self.__castD = {"integer": int, "float": float,
"string": str}` applied to a cell value; `Except.error` models a raised
cast exception. -/
def castD (p : PyPrims) : DType → Val → Except Unit Val
  | .integer, .vStr s =>
    match p.parseIntStr s with
    | some n => .ok (.vInt n)
    | none => .error ()
  | .integer, .vInt n => .ok (.vInt n)
  | .integer, .vFloat f =>
    match pyFloatToInt f with
    | some n => .ok (.vInt n)
    | none => .error ()
  | .integer, .vNone => .error ()
  | .float, .vStr s =>
    match p.parseFloatStr s with
    | some f => .ok (.vFloat f)
    | none => .error ()
  | .float, .vInt n => .ok (.vFloat (.fin (n : ℚ)))
  | .float, .vFloat f => .ok (.vFloat f)
  | .float, .vNone => .error ()
  | .string, v => .ok (.vStr (pyStrFun p v))

/-- One cell of the `applyTypes` inner loop: `row[ii] =
self.__castD[dataType](row[ii]) if row[ii] is not None and row[ii] not in
[".", "?"] else missingValue`, with the surrounding `try/except` replacing a
failed cast by the substitute. -/
def castCell (p : PyPrims) (dataType : DType) (missingValue cell : Val) : Val :=
  if isMissingCell cell then missingValue
  else
    match castD p dataType cell with
    | .ok w => w
    | .error _ => missingValue

/-- One cell of the `applyStringTypes` inner loop: missing cells become the
reserved marker for the column's optionality, other cells are stringified. -/
def stringifyCell (p : PyPrims) (isMandatory : Bool) (cell : Val) : Val :=
  if isMissingCell cell then (if isMandatory then Val.vStr "." else Val.vStr "?")
  else Val.vStr (pyStrFun p cell)

/-- Substring containment on lists, used for Python `"int" in cifDataType`. -/
def listIsInfixOf : List Char → List Char → Bool
  | pat, [] => pat.isEmpty
  | pat, c :: rest => pat.isPrefixOf (c :: rest) || listIsInfixOf pat rest

/-- Python `pat in hay` for strings: substring containment. -/
def strContains (hay pat : String) : Bool := listIsInfixOf pat.data hay.data

/-- The class-level denylist `difficult_attributes`, translated verbatim
(including the duplicated entry). -/
def difficult_attributes : List String :=
  ["concentration_range", "pdb_chain_residue_range", "axial_symmetry",
   "concentration_range", "point_symmetry", "used_frames_per_image",
   "temperature", "pH"]

/-- Interface of the injected `DictionaryApi` collaborator (the Schema
Resolver): each lookup returns a code string or raises (`none`). -/
structure DictionaryApi where
  getTypeCode : String → String → Option String
  getTypePrimitive : String → String → Option String
  getMandatoryCode : String → String → Option String

/-- The private `__getAttributeInfo`: resolves (data type, mandatory flag)
for a column from the dictionary API; any lookup failure — including the
absence of a dictionary API — propagates as `none` (a raised exception in
the source). -/
def getAttributeInfoPriv (dApi : Option DictionaryApi) (catName atName : String) :
    Option (DType × Bool) :=
  match dApi with
  | none => none
  | some api =>
    match api.getTypeCode catName atName, api.getTypePrimitive catName atName,
        api.getMandatoryCode catName atName with
    | some cifDataType, some cifPrimitiveType, some mandCode =>
      let isMandatory : Bool :=
        decide (mandCode ∈ (["yes", "implicit", "implicit-ordinal"] : List String))
      let dataType : DType :=
        if strContains cifDataType "int" then DType.integer
        else if cifPrimitiveType = "numb" then DType.float
        else DType.string
      let dataType : DType :=
        if atName ∈ difficult_attributes then DType.string else dataType
      some (dataType, isMandatory)
    | _, _, _ => none

/-- The public `getAttributeInfo`: wraps the private resolver in
`try/except`, degrading every lookup failure to the explicit pair
`(None, None)` instead of raising. -/
def getAttributeInfo (dApi : Option DictionaryApi) (catName atName : String) :
    Option DType × Option Bool :=
  match getAttributeInfoPriv dApi catName atName with
  | some (dataType, mandatoryCode) => (some dataType, some mandatoryCode)
  | none => (none, none)

/-- The missing-value substitute computed at the top of the `applyTypes`
column loop (lines 99–101 of the source): type-directed caller default,
overridden by the reserved markers when `useCifUnknowns` is set. -/
def computeMissing (useCifUnknowns : Bool) (mvS mvI mvF : Val)
    (dataType : DType) (isMandatory : Bool) : Val :=
  let missingValue :=
    if dataType = DType.integer then mvI
    else if dataType = DType.integer ∨ dataType = DType.float then mvF
    else mvS
  if useCifUnknowns then (if isMandatory then Val.vStr "." else Val.vStr "?")
  else missingValue

/-- Rewrite every row's cell at column index `ii` through `f` (the in-place
`row[ii] = f(row[ii])` loop over `self.data`). -/
def setColumn (f : Val → Val) (ii : Nat) (data : List (List Val)) : List (List Val) :=
  data.map (fun row => row.set ii (f (row.getD ii Val.vNone)))

/-- The list of cells of column `ii` across all rows. -/
def colProj (ii : Nat) (data : List (List Val)) : List Val :=
  data.map (fun row => row.getD ii Val.vNone)

/-- Functional update of the `self.__attributeTypeD` dictionary. -/
def updateTypeD (d : String → Option DType) (atName : String) (t : DType) :
    String → Option DType :=
  fun x => if x = atName then some t else d x

/-- Outcome of a casting pass: the mutated row storage, the recorded column
types, the `ok` flag the method returns, and whether the column loop was
aborted by an exception (a failed schema lookup). -/
structure PassResult where
  data : List (List Val)
  typeD : String → Option DType
  ok : Bool
  errored : Bool

/-- The column loop of `applyTypes`, over the enumerated attribute list.
A schema-lookup failure aborts the loop with the data mutated so far
(the source's outer `try/except`); per-cell cast failures are absorbed by
`castCell`.  The `ignoreCastErrors` flag of the source only suppresses
logging, so it has no effect on this state. -/
def applyTypesGo (p : PyPrims) (resolve : String → Option (DType × Bool))
    (useCifUnknowns : Bool) (mvS mvI mvF : Val) :
    List (Nat × String) → List (List Val) → (String → Option DType) → Bool → PassResult
  | [], data, typeD, ok => ⟨data, typeD, ok, false⟩
  | (ii, atName) :: rest, data, typeD, ok =>
    match resolve atName with
    | none => ⟨data, typeD, ok, true⟩
    | some (dataType, isMandatory) =>
      let missingValue := computeMissing useCifUnknowns mvS mvI mvF dataType isMandatory
      applyTypesGo p resolve useCifUnknowns mvS mvI mvF rest
        (setColumn (castCell p dataType missingValue) ii data)
        (updateTypeD typeD atName dataType) true

/-- `applyTypes`: casts every column of the table according to the resolved
dictionary types; `ignoreCastErrors` only gates logging in the source and is
kept for signature fidelity. -/
def applyTypes (p : PyPrims) (dApi : Option DictionaryApi) (catName : String)
    (ignoreCastErrors useCifUnknowns : Bool) (mvS mvI mvF : Val)
    (attrList : List String) (data : List (List Val)) : PassResult :=
  applyTypesGo p (getAttributeInfoPriv dApi catName) useCifUnknowns mvS mvI mvF
    attrList.enum data (fun _ => none) false

/-- The column loop of `applyStringTypes`: missing cells become reserved
markers, other cells are stringified, and every processed column's recorded
type becomes `string`. -/
def applyStringTypesGo (p : PyPrims) (resolve : String → Option (DType × Bool)) :
    List (Nat × String) → List (List Val) → (String → Option DType) → Bool → PassResult
  | [], data, typeD, ok => ⟨data, typeD, ok, false⟩
  | (ii, atName) :: rest, data, typeD, ok =>
    match resolve atName with
    | none => ⟨data, typeD, ok, true⟩
    | some (_, isMandatory) =>
      applyStringTypesGo p resolve rest
        (setColumn (stringifyCell p isMandatory) ii data)
        (updateTypeD typeD atName DType.string) true

/-- `applyStringTypes`: forces every column of a table to strings, starting
from the table's current cells and recorded types. -/
def applyStringTypes (p : PyPrims) (dApi : Option DictionaryApi) (catName : String)
    (attrList : List String) (data : List (List Val))
    (typeD : String → Option DType) : PassResult :=
  applyStringTypesGo p (getAttributeInfoPriv dApi catName) attrList.enum data typeD false

/-- Modelled from the spec: the Raw Table interface of the base
`DataCategory` class (its module is not under src); §6 specifies an ordered
column-name list, row storage as sequences of cells aligned with the
columns, a row count, and a column-value accessor. -/
structure Table where
  name : String
  attributeList : List String
  data : List (List Val)

/-- Modelled from the spec: the base-class column accessor
`getAttributeValueList`, returning the full value list of the named column
(§6 Raw Table interface). -/
def getAttributeValueList (t : Table) (atName : String) : List Val :=
  match t.attributeList.indexOf? atName with
  | some ii => t.data.map (fun row => row.getD ii Val.vNone)
  | none => []

/-- The column-name intersection `list(set(a) & set(b))` of
`cmpAttributeValues`; set iteration order is modelled as first-table order. -/
def atNameComList (a b : Table) : List String :=
  a.attributeList.dedup.filter (fun x => x ∈ b.attributeList)

/-- The private `__isClose`: both `None` → equal; both present and
Python-equal → equal; both floats → tolerance test; anything else raises
`ValueError`. -/
def isClose (aV bV : Val) (relTol absTol : PyFloat) : Except Unit Bool :=
  if aV = Val.vNone ∧ bV = Val.vNone then .ok true
  else if aV ≠ Val.vNone ∧ bV ≠ Val.vNone ∧ pyEq aV bV then .ok true
  else
    match aV, bV with
    | .vFloat a, .vFloat b =>
      .ok (PyFloat.ble ((PyFloat.sub a b).abs)
        (PyFloat.pymax (PyFloat.mul relTol (PyFloat.pymax a.abs b.abs)) absTol))
    | _, _ => .error ()

/-- The `for aV, bV in zip(...)` loop of the float branch: `same` is
reassigned by each pair and the loop breaks at the first non-close pair;
with no pairs the incoming `same` (possibly still unbound, `none`) is
passed through. -/
def floatPairLoop (relTol absTol : PyFloat) :
    List (Val × Val) → Option Bool → Except Unit (Option Bool)
  | [], same => .ok same
  | (aV, bV) :: rest, _ => do
    let s ← isClose aV bV relTol absTol
    if s then floatPairLoop relTol absTol rest (some s) else .ok (some s)

/-- The body of the `cmpAttributeValues` column loop for one shared column:
returns the value of the local variable `same` after the body, `none`
meaning it was never assigned, `Except.error` a raised exception (schema
lookup failure, unsortable list, or `__isClose` ValueError). -/
def cmpColumn (dApi : Option DictionaryApi) (self other : Table)
    (ignoreOrder : Bool) (relTol absTol : PyFloat)
    (same : Option Bool) (atName : String) : Except Unit (Option Bool) :=
  match getAttributeInfoPriv dApi self.name atName with
  | none => .error ()
  | some (dataType, _) =>
    match dataType with
    | DType.string => stringIntCompare
    | DType.integer => stringIntCompare
    | DType.float => do
      let aVL := getAttributeValueList self atName
      let bVL := getAttributeValueList other atName
      if ignoreOrder then do
        let sa ← pySorted aVL
        let sb ← pySorted bVL
        floatPairLoop relTol absTol (sa.zip sb) same
      else
        floatPairLoop relTol absTol (aVL.zip bVL) same
where
  stringIntCompare : Except Unit (Option Bool) :=
    if ignoreOrder then do
      let sa ← pySorted (getAttributeValueList self atName)
      let sb ← pySorted (getAttributeValueList other atName)
      pure (some (pyListEq sa sb))
    else
      pure (some (pyListEq (getAttributeValueList self atName)
        (getAttributeValueList other atName)))

/-- The column loop of `cmpAttributeValues`, threading the loop-local
variable `same` and the accumulated result list `rL`; the third component
records whether an exception aborted the loop (reading a never-assigned
`same` at the append is the UnboundLocalError of the source).  On abort the
accumulated `rL` is kept — it is what the source returns when exceptions
are not re-raised. -/
def cmpLoop (dApi : Option DictionaryApi) (self other : Table)
    (ignoreOrder : Bool) (relTol absTol : PyFloat) :
    List String → Option Bool → List (String × Bool) →
    Option Bool × List (String × Bool) × Bool
  | [], same, rL => (same, rL, false)
  | atName :: rest, same, rL =>
    match cmpColumn dApi self other ignoreOrder relTol absTol same atName with
    | .error _ => (same, rL, true)
    | .ok none => (none, rL, true)
    | .ok (some b) =>
      cmpLoop dApi self other ignoreOrder relTol absTol rest (some b) (rL ++ [(atName, b)])

/-- `cmpAttributeValues`: compares shared columns of two tables.  A row-count
mismatch short-circuits to all-unequal; otherwise the column loop runs and an
exception either propagates (`raiseExceptions`) or yields the partial list. -/
def cmpAttributeValues (dApi : Option DictionaryApi) (raiseExceptions : Bool)
    (self other : Table) (ignoreOrder : Bool) (relTol absTol : PyFloat) :
    Except Unit (List (String × Bool)) :=
  let comList := atNameComList self other
  if self.data.length = other.data.length then
    match cmpLoop dApi self other ignoreOrder relTol absTol comList none [] with
    | (_, rL, false) => .ok rL
    | (_, rL, true) => if raiseExceptions then .error () else .ok rL
  else
    .ok (comList.map (fun a => (a, false)))

/-- The cell holds a Python value of the column's resolved type. -/
def valHasType : DType → Val → Bool
  | .integer, .vInt _ => true
  | .float, .vFloat _ => true
  | .string, .vStr _ => true
  | _, _ => false

/-- Decimal digit value of a character, if it is one. -/
def decDigit? (c : Char) : Option Nat :=
  if c = '0' then some 0
  else if c = '1' then some 1
  else if c = '2' then some 2
  else if c = '3' then some 3
  else if c = '4' then some 4
  else if c = '5' then some 5
  else if c = '6' then some 6
  else if c = '7' then some 7
  else if c = '8' then some 8
  else if c = '9' then some 9
  else none

/-- Accumulate a decimal digit string into a number. -/
def digitsToNat (acc : Nat) : List Char → Option Nat
  | [] => some acc
  | c :: rest =>
    match decDigit? c with
    | some d => digitsToNat (acc * 10 + d) rest
    | none => none

/-- Parse an optionally signed decimal integer literal (a concrete fragment
of Python `int(str)` behaviour, for evaluating the embedding on inputs). -/
def parseIntSimple (s : String) : Option ℤ :=
  match s.data with
  | [] => none
  | c :: rest =>
    if c = '-' then
      match rest with
      | [] => none
      | _ => (digitsToNat 0 rest).map (fun n => -(n : ℤ))
    else (digitsToNat 0 (c :: rest)).map (fun n => (n : ℤ))

/-- Sample instantiation of the Python-builtin interface, used to evaluate
the embedding on concrete inputs: integer literals parse by `parseIntSimple`
and the string renderers are constant (their exact output never matters to
the properties proved here). -/
def simplePrims : PyPrims where
  parseIntStr := parseIntSimple
  parseFloatStr := fun s => (parseIntSimple s).map (fun n => PyFloat.fin (n : ℚ))
  strOfInt := fun _ => "N"
  strOfFloat := fun _ => "F"

/-- Dictionary API declaring every column an integer-family mandatory item. -/
def intApi : DictionaryApi where
  getTypeCode := fun _ _ => some "int"
  getTypePrimitive := fun _ _ => some "numb"
  getMandatoryCode := fun _ _ => some "yes"

/-- Dictionary API declaring every column a float optional item. -/
def floatApi : DictionaryApi where
  getTypeCode := fun _ _ => some "float"
  getTypePrimitive := fun _ _ => some "numb"
  getMandatoryCode := fun _ _ => some "no"

/-- Dictionary API declaring column "aaa" a character item and every other
column a float item. -/
def mixApi : DictionaryApi where
  getTypeCode := fun _ a => if a = "aaa" then some "char" else some "float"
  getTypePrimitive := fun _ a => if a = "aaa" then some "char" else some "numb"
  getMandatoryCode := fun _ _ => some "no"

/-- A table with one float-typed column and zero rows. -/
def emptyFloatTable : Table where
  name := "cat"
  attributeList := ["val"]
  data := []

/-- Comparison fixture: a string column "aaa" and a float column "bbb"
holding a reserved marker. -/
def cmpTblA : Table where
  name := "cat"
  attributeList := ["aaa", "bbb"]
  data := [[Val.vStr "x", Val.vStr "."]]

/-- Comparison fixture differing from `cmpTblA` only in the marker of the
float column, making that column's pair incomparable for `__isClose`. -/
def cmpTblB : Table where
  name := "cat"
  attributeList := ["aaa", "bbb"]
  data := [[Val.vStr "x", Val.vStr "?"]]

/-- Row-count fixture: one row. -/
def rcTblA : Table where
  name := "cat"
  attributeList := ["aaa"]
  data := [[Val.vStr "x"]]

/-- Row-count fixture: zero rows. -/
def rcTblB : Table where
  name := "cat"
  attributeList := ["aaa"]
  data := []

/-- Data component of the `applyStringTypes` column loop: the loop's control
flow (which columns get processed) depends only on the schema lookups, never
on the data, so the data evolution factors out of `applyStringTypesGo`. -/
def stringPassData (p : PyPrims) (resolve : String → Option (DType × Bool)) :
    List (Nat × String) → List (List Val) → List (List Val)
  | [], data => data
  | (ii, atName) :: rest, data =>
    match resolve atName with
    | none => data
    | some (_, isMandatory) =>
      stringPassData p resolve rest (setColumn (stringifyCell p isMandatory) ii data)

/-- Names of the columns processed (in order) by the `applyStringTypes` loop
before a schema-lookup failure aborts it. -/
def stringPassNames (resolve : String → Option (DType × Bool)) :
    List (Nat × String) → List String
  | [] => []
  | (_, atName) :: rest =>
    match resolve atName with
    | none => []
    | some _ => atName :: stringPassNames resolve rest

theorem getD_set_self (d : Val) (l : List Val) (i : Nat) (v : Val) (h : i < l.length) :
    (l.set i v).getD i d = v := by
  rw [List.getD_eq_getElem?_getD, List.getElem?_set_eq_of_lt v h, Option.getD_some]

theorem getD_set_ne (d : Val) (l : List Val) {i j : Nat} (v : Val) (h : i ≠ j) :
    (l.set i v).getD j d = l.getD j d := by
  rw [List.getD_eq_getElem?_getD, List.getD_eq_getElem?_getD, List.getElem?_set_ne h]

theorem setColumn_idem (f : Val → Val) (hf : ∀ c, f (f c) = f c) (ii : Nat)
    (data : List (List Val)) :
    setColumn f ii (setColumn f ii data) = setColumn f ii data := by
  unfold setColumn
  rw [List.map_map]
  apply List.map_congr_left
  intro row _
  simp only [Function.comp]
  by_cases h : ii < row.length
  · rw [getD_set_self _ _ _ _ h, hf, List.set_set]
  · push_neg at h
    rw [List.set_eq_of_length_le h, List.set_eq_of_length_le h]

theorem setColumn_comm (f g : Val → Val) {ii jj : Nat} (h : ii ≠ jj)
    (data : List (List Val)) :
    setColumn f ii (setColumn g jj data) = setColumn g jj (setColumn f ii data) := by
  unfold setColumn
  rw [List.map_map, List.map_map]
  apply List.map_congr_left
  intro row _
  simp only [Function.comp]
  rw [getD_set_ne _ _ _ (Ne.symm h), getD_set_ne _ _ _ h]
  exact List.set_comm _ _ _ (Ne.symm h)

theorem colProj_setColumn_ne (f : Val → Val) {ii jj : Nat} (h : jj ≠ ii)
    (data : List (List Val)) :
    colProj ii (setColumn f jj data) = colProj ii data := by
  unfold colProj setColumn
  rw [List.map_map]
  apply List.map_congr_left
  intro row _
  exact getD_set_ne _ _ _ h

theorem colProj_setColumn_self (f : Val → Val) (ii : Nat) (data : List (List Val))
    (h : ∀ row ∈ data, ii < row.length) :
    colProj ii (setColumn f ii data) = (colProj ii data).map f := by
  unfold colProj setColumn
  rw [List.map_map, List.map_map]
  apply List.map_congr_left
  intro row hr
  exact getD_set_self _ _ _ _ (h row hr)

theorem castD_hasType (p : PyPrims) :
    ∀ (dt : DType) (c w : Val), castD p dt c = .ok w → valHasType dt w = true := by
  intro dt c w h
  cases dt with
  | integer =>
    cases c with
    | vStr s =>
      cases hp : p.parseIntStr s with
      | none => simp [castD, hp] at h
      | some n => simp [castD, hp] at h; subst h; rfl
    | vInt n => simp [castD] at h; subst h; rfl
    | vFloat f =>
      cases hp : pyFloatToInt f with
      | none => simp [castD, hp] at h
      | some n => simp [castD, hp] at h; subst h; rfl
    | vNone => simp [castD] at h
  | float =>
    cases c with
    | vStr s =>
      cases hp : p.parseFloatStr s with
      | none => simp [castD, hp] at h
      | some f => simp [castD, hp] at h; subst h; rfl
    | vInt n => simp [castD] at h; subst h; rfl
    | vFloat f => simp [castD] at h; subst h; rfl
    | vNone => simp [castD] at h
  | string =>
    cases c <;> simp [castD] at h <;> subst h <;> rfl

theorem castCell_typed_or_missing (p : PyPrims) (dt : DType) (mv c : Val) :
    valHasType dt (castCell p dt mv c) = true ∨ castCell p dt mv c = mv := by
  unfold castCell
  by_cases hm : isMissingCell c = true
  · simp [hm]
  · simp only [Bool.not_eq_true] at hm
    simp only [hm, Bool.false_eq_true, if_false]
    cases hc : castD p dt c with
    | ok w => left; exact castD_hasType p dt c w hc
    | error e => right; rfl

theorem applyTypesGo_colProj_preserve (p : PyPrims)
    (resolve : String → Option (DType × Bool)) (useCif : Bool) (mvS mvI mvF : Val)
    (ii : Nat) :
    ∀ (L : List (Nat × String)) (data : List (List Val))
      (typeD : String → Option DType) (ok : Bool),
      (∀ q ∈ L, q.1 ≠ ii) →
      colProj ii (applyTypesGo p resolve useCif mvS mvI mvF L data typeD ok).data =
        colProj ii data := by
  intro L
  induction L with
  | nil => intro data typeD ok _; rfl
  | cons q rest ih =>
    intro data typeD ok h
    obtain ⟨jj, atName⟩ := q
    cases hres : resolve atName with
    | none => simp [applyTypesGo, hres]
    | some pr =>
      obtain ⟨dt, m⟩ := pr
      simp only [applyTypesGo, hres]
      rw [ih _ _ _ (fun q hq => h q (List.mem_cons_of_mem _ hq))]
      exact colProj_setColumn_ne _ (h (jj, atName) (List.mem_cons_self _ _)) data

theorem applyTypesGo_rowlen (p : PyPrims)
    (resolve : String → Option (DType × Bool)) (useCif : Bool) (mvS mvI mvF : Val)
    (P : Nat → Prop) :
    ∀ (L : List (Nat × String)) (data : List (List Val))
      (typeD : String → Option DType) (ok : Bool),
      (∀ row ∈ data, P row.length) →
      ∀ row ∈ (applyTypesGo p resolve useCif mvS mvI mvF L data typeD ok).data,
        P row.length := by
  intro L
  induction L with
  | nil => intro data typeD ok h; exact h
  | cons q rest ih =>
    intro data typeD ok h
    obtain ⟨jj, atName⟩ := q
    cases hres : resolve atName with
    | none => simpa [applyTypesGo, hres] using h
    | some pr =>
      obtain ⟨dt, m⟩ := pr
      simp only [applyTypesGo, hres]
      apply ih
      intro row hr
      unfold setColumn at hr
      obtain ⟨row0, hr0, hrow⟩ := List.mem_map.mp hr
      subst hrow
      rw [List.length_set]
      exact h row0 hr0

theorem applyTypesGo_cells (p : PyPrims)
    (resolve : String → Option (DType × Bool)) (useCif : Bool) (mvS mvI mvF : Val) :
    ∀ (L : List (Nat × String)) (data : List (List Val))
      (typeD : String → Option DType) (ok : Bool),
      (L.map Prod.fst).Nodup →
      (∀ row ∈ data, ∀ q ∈ L, q.1 < row.length) →
      (applyTypesGo p resolve useCif mvS mvI mvF L data typeD ok).errored = false →
      ∀ q ∈ L, ∃ dt m, resolve q.2 = some (dt, m) ∧
        ∀ c ∈ colProj q.1 (applyTypesGo p resolve useCif mvS mvI mvF L data typeD ok).data,
          valHasType dt c = true ∨ c = computeMissing useCif mvS mvI mvF dt m := by
  intro L
  induction L with
  | nil => intro data typeD ok _ _ _ q hq; exact absurd hq (List.not_mem_nil q)
  | cons hd rest ih =>
    intro data typeD ok hnd hL herr q hq
    obtain ⟨jj, aN⟩ := hd
    cases hres : resolve aN with
    | none =>
      rw [show applyTypesGo p resolve useCif mvS mvI mvF ((jj, aN) :: rest) data typeD ok =
        ⟨data, typeD, ok, true⟩ by simp [applyTypesGo, hres]] at herr
      simp at herr
    | some pr =>
      obtain ⟨dt0, m0⟩ := pr
      have hstep : applyTypesGo p resolve useCif mvS mvI mvF ((jj, aN) :: rest) data typeD ok =
          applyTypesGo p resolve useCif mvS mvI mvF rest
            (setColumn (castCell p dt0 (computeMissing useCif mvS mvI mvF dt0 m0)) jj data)
            (updateTypeD typeD aN dt0) true := by
        simp [applyTypesGo, hres]
      rw [hstep] at herr ⊢
      have hnd2 : jj ∉ rest.map Prod.fst ∧ (rest.map Prod.fst).Nodup := by
        rw [List.map_cons] at hnd
        exact List.nodup_cons.mp hnd
      rcases List.mem_cons.mp hq with hq1 | hq2
      · -- the head column itself
        subst hq1
        refine ⟨dt0, m0, hres, ?_⟩
        intro c hc
        rw [applyTypesGo_colProj_preserve p resolve useCif mvS mvI mvF jj rest _ _ _
          (fun r hr => by
            intro hcontra
            exact hnd2.1 (hcontra ▸ List.mem_map_of_mem Prod.fst hr))] at hc
        rw [colProj_setColumn_self _ _ _
          (fun row hrow => hL row hrow (jj, aN) (List.mem_cons_self _ _))] at hc
        obtain ⟨x, _, hx⟩ := List.mem_map.mp hc
        rw [← hx]
        exact castCell_typed_or_missing p dt0 _ x
      · -- a column of the tail
        apply ih _ _ _ hnd2.2 _ herr q hq2
        intro row hrow q2 hq2m
        unfold setColumn at hrow
        obtain ⟨row0, hr0, hrow0⟩ := List.mem_map.mp hrow
        subst hrow0
        rw [List.length_set]
        exact hL row0 hr0 q2 (List.mem_cons_of_mem _ hq2m)

theorem applyStringTypesGo_data (p : PyPrims)
    (resolve : String → Option (DType × Bool)) :
    ∀ (L : List (Nat × String)) (data : List (List Val))
      (typeD : String → Option DType) (ok : Bool),
      (applyStringTypesGo p resolve L data typeD ok).data = stringPassData p resolve L data := by
  intro L
  induction L with
  | nil => intro data typeD ok; rfl
  | cons hd rest ih =>
    intro data typeD ok
    obtain ⟨jj, aN⟩ := hd
    cases hres : resolve aN with
    | none => simp [applyStringTypesGo, stringPassData, hres]
    | some pr =>
      obtain ⟨t, m⟩ := pr
      simp [applyStringTypesGo, stringPassData, hres, ih]

theorem applyStringTypesGo_typeD (p : PyPrims)
    (resolve : String → Option (DType × Bool)) :
    ∀ (L : List (Nat × String)) (data : List (List Val))
      (typeD : String → Option DType) (ok : Bool),
      (applyStringTypesGo p resolve L data typeD ok).typeD =
        fun x => if x ∈ stringPassNames resolve L then some DType.string else typeD x := by
  intro L
  induction L with
  | nil => intro data typeD ok; funext x; simp [applyStringTypesGo, stringPassNames]
  | cons hd rest ih =>
    intro data typeD ok
    obtain ⟨jj, aN⟩ := hd
    cases hres : resolve aN with
    | none =>
      funext x
      simp [applyStringTypesGo, stringPassNames, hres]
    | some pr =>
      obtain ⟨t, m⟩ := pr
      rw [show applyStringTypesGo p resolve ((jj, aN) :: rest) data typeD ok =
        applyStringTypesGo p resolve rest (setColumn (stringifyCell p m) jj data)
          (updateTypeD typeD aN DType.string) true by simp [applyStringTypesGo, hres]]
      rw [ih]
      funext x
      by_cases hx : x ∈ stringPassNames resolve rest
      · simp [hx, stringPassNames, hres]
      · by_cases hxa : x = aN
        · subst hxa
          simp [hx, stringPassNames, hres, updateTypeD]
        · simp [hx, stringPassNames, hres, hxa, updateTypeD]

theorem stringifyCell_idem (p : PyPrims)
    (hI : ∀ n, p.strOfInt n ≠ "." ∧ p.strOfInt n ≠ "?")
    (hF : ∀ f, p.strOfFloat f ≠ "." ∧ p.strOfFloat f ≠ "?")
    (m : Bool) (c : Val) :
    stringifyCell p m (stringifyCell p m c) = stringifyCell p m c := by
  by_cases hm : isMissingCell c = true
  · have h1 : stringifyCell p m c = (if m then Val.vStr "." else Val.vStr "?") := by
      simp [stringifyCell, hm]
    rw [h1]
    cases m
    · simp [stringifyCell, isMissingCell, pyEq]
    · simp [stringifyCell, isMissingCell, pyEq]
  · rw [Bool.not_eq_true] at hm
    have h1 : stringifyCell p m c = Val.vStr (pyStrFun p c) := by
      simp [stringifyCell, hm]
    have hout : isMissingCell (Val.vStr (pyStrFun p c)) = false := by
      cases c with
      | vStr s => simpa [pyStrFun] using hm
      | vInt n => simp [isMissingCell, pyEq, pyStrFun, (hI n).1, (hI n).2]
      | vFloat f => simp [isMissingCell, pyEq, pyStrFun, (hF f).1, (hF f).2]
      | vNone => simp [isMissingCell] at hm
    rw [h1]
    unfold stringifyCell
    rw [hout]
    simp [pyStrFun]

theorem stringPassData_setColumn_comm (p : PyPrims)
    (resolve : String → Option (DType × Bool)) (f : Val → Val) (ii : Nat) :
    ∀ (L : List (Nat × String)) (data : List (List Val)),
      (∀ q ∈ L, q.1 ≠ ii) →
      stringPassData p resolve L (setColumn f ii data) =
        setColumn f ii (stringPassData p resolve L data) := by
  intro L
  induction L with
  | nil => intro data _; rfl
  | cons hd rest ih =>
    intro data h
    obtain ⟨jj, aN⟩ := hd
    cases hres : resolve aN with
    | none => simp [stringPassData, hres]
    | some pr =>
      obtain ⟨t, m⟩ := pr
      simp only [stringPassData, hres]
      rw [setColumn_comm (stringifyCell p m) f (h (jj, aN) (List.mem_cons_self _ _)) data]
      exact ih _ (fun q hq => h q (List.mem_cons_of_mem _ hq))

theorem stringPassData_idem (p : PyPrims)
    (resolve : String → Option (DType × Bool))
    (hI : ∀ n, p.strOfInt n ≠ "." ∧ p.strOfInt n ≠ "?")
    (hF : ∀ f, p.strOfFloat f ≠ "." ∧ p.strOfFloat f ≠ "?") :
    ∀ (L : List (Nat × String)) (data : List (List Val)),
      (L.map Prod.fst).Nodup →
      stringPassData p resolve L (stringPassData p resolve L data) =
        stringPassData p resolve L data := by
  intro L
  induction L with
  | nil => intro data _; rfl
  | cons hd rest ih =>
    intro data hnd
    obtain ⟨jj, aN⟩ := hd
    have hnd2 : jj ∉ rest.map Prod.fst ∧ (rest.map Prod.fst).Nodup := by
      rw [List.map_cons] at hnd
      exact List.nodup_cons.mp hnd
    have hne : ∀ q ∈ rest, q.1 ≠ jj := by
      intro q hq hcontra
      exact hnd2.1 (hcontra ▸ List.mem_map_of_mem Prod.fst hq)
    cases hres : resolve aN with
    | none => simp [stringPassData, hres]
    | some pr =>
      obtain ⟨t, m⟩ := pr
      simp only [stringPassData, hres]
      rw [stringPassData_setColumn_comm p resolve _ jj rest _ hne]
      rw [ih _ hnd2.2]
      rw [← stringPassData_setColumn_comm p resolve _ jj rest _ hne]
      rw [setColumn_idem _ (stringifyCell_idem p hI hF m) jj]

theorem cmpLoop_append (dApi : Option DictionaryApi) (self other : Table)
    (ignOrd : Bool) (rt abst : PyFloat) :
    ∀ (L1 L2 : List String) (s : Option Bool) (rL : List (String × Bool))
      (s1 : Option Bool) (rL1 : List (String × Bool)),
      cmpLoop dApi self other ignOrd rt abst L1 s rL = (s1, rL1, false) →
      cmpLoop dApi self other ignOrd rt abst (L1 ++ L2) s rL =
        cmpLoop dApi self other ignOrd rt abst L2 s1 rL1 := by
  intro L1
  induction L1 with
  | nil =>
    intro L2 s rL s1 rL1 h
    obtain ⟨h1, h2, _⟩ := Prod.mk.injEq .. ▸ h
    simp only [cmpLoop] at h
    obtain ⟨rfl, rfl, -⟩ := Prod.mk.injEq .. ▸ h
    rfl
  | cons a L1 ih =>
    intro L2 s rL s1 rL1 h
    simp only [cmpLoop, List.cons_append] at h ⊢
    cases hc : cmpColumn dApi self other ignOrd rt abst s a with
    | error e => rw [hc] at h; simp at h
    | ok ob =>
      rw [hc] at h
      cases ob with
      | none => simp at h
      | some b => exact ih L2 _ _ _ _ h

theorem cmpLoop_names (dApi : Option DictionaryApi) (self other : Table)
    (ignOrd : Bool) (rt abst : PyFloat) :
    ∀ (L : List String) (s : Option Bool) (rL : List (String × Bool))
      (s1 : Option Bool) (rL1 : List (String × Bool)),
      cmpLoop dApi self other ignOrd rt abst L s rL = (s1, rL1, false) →
      rL1.map Prod.fst = rL.map Prod.fst ++ L := by
  intro L
  induction L with
  | nil =>
    intro s rL s1 rL1 h
    simp only [cmpLoop] at h
    obtain ⟨-, rfl, -⟩ := Prod.mk.injEq .. ▸ h
    simp
  | cons a L ih =>
    intro s rL s1 rL1 h
    simp only [cmpLoop] at h
    cases hc : cmpColumn dApi self other ignOrd rt abst s a with
    | error e => rw [hc] at h; simp at h
    | ok ob =>
      rw [hc] at h
      cases ob with
      | none => simp at h
      | some b =>
        have := ih _ _ _ _ h
        rw [this]
        simp

/-- C1: after a successful casting pass (`applyTypes`), for every column and
every row the cell holds either a value of the column's resolved type or that
column's computed missing substitute, and this holds regardless of
`ignoreCastErrors` (the flag only gates logging; a cast failure also
substitutes) — no cell retains its unconverted raw text. -/
theorem applyTypes_cell_typed_or_substitute (p : PyPrims)
    (dApi : Option DictionaryApi) (catName : String)
    (ignoreCastErrors useCifUnknowns : Bool) (mvS mvI mvF : Val)
    (attrList : List String) (data : List (List Val))
    (hlen : ∀ row ∈ data, row.length = attrList.length)
    (herr : (applyTypes p dApi catName ignoreCastErrors useCifUnknowns mvS mvI mvF
      attrList data).errored = false) :
    ∀ q ∈ attrList.enum, ∃ dt m,
      getAttributeInfoPriv dApi catName q.2 = some (dt, m) ∧
      ∀ c ∈ colProj q.1 (applyTypes p dApi catName ignoreCastErrors useCifUnknowns
          mvS mvI mvF attrList data).data,
        valHasType dt c = true ∨ c = computeMissing useCifUnknowns mvS mvI mvF dt m := by
  have hnd : (attrList.enum.map Prod.fst).Nodup := by
    rw [List.enum_map_fst]
    exact List.nodup_range _
  have hL : ∀ row ∈ data, ∀ q ∈ attrList.enum, q.1 < row.length := by
    intro row hrow q hq
    rw [hlen row hrow]
    have hm : q.1 ∈ attrList.enum.map Prod.fst := List.mem_map_of_mem Prod.fst hq
    rw [List.enum_map_fst] at hm
    exact List.mem_range.mp hm
  exact applyTypesGo_cells p (getAttributeInfoPriv dApi catName) useCifUnknowns
    mvS mvI mvF attrList.enum data (fun _ => none) false hnd hL herr

/-- Witness for C1: a mandatory integer column over a parsable cell, an
unparsable cell and a reserved marker. -/
theorem applyTypes_cell_typed_or_substitute_witness :
    (∀ row ∈ ([[Val.vStr "3"], [Val.vStr "x"], [Val.vStr "."]] : List (List Val)),
      row.length = (["num"] : List String).length) ∧
    (applyTypes simplePrims (some intApi) "cat" false true Val.vNone Val.vNone Val.vNone
      ["num"] [[Val.vStr "3"], [Val.vStr "x"], [Val.vStr "."]]).errored = false ∧
    ∀ q ∈ (["num"] : List String).enum, ∃ dt m,
      getAttributeInfoPriv (some intApi) "cat" q.2 = some (dt, m) ∧
      ∀ c ∈ colProj q.1 (applyTypes simplePrims (some intApi) "cat" false true
          Val.vNone Val.vNone Val.vNone ["num"]
          [[Val.vStr "3"], [Val.vStr "x"], [Val.vStr "."]]).data,
        valHasType dt c = true ∨ c = computeMissing true Val.vNone Val.vNone Val.vNone dt m :=
  ⟨by decide, by decide,
    applyTypes_cell_typed_or_substitute simplePrims (some intApi) "cat" false true
      Val.vNone Val.vNone Val.vNone ["num"]
      [[Val.vStr "3"], [Val.vStr "x"], [Val.vStr "."]] (by decide) (by decide)⟩

/-- C2: when the three schema lookups succeed, the resolved type of a column
not in the denylist follows the classification rule (integer-family type code
→ integer; otherwise numeric primitive → float; otherwise string), and the
resolved type of a denylisted column is string regardless of the codes. -/
theorem getAttributeInfo_resolved_type (api : DictionaryApi)
    (catName atName tc pt mc : String)
    (htc : api.getTypeCode catName atName = some tc)
    (hpt : api.getTypePrimitive catName atName = some pt)
    (hmc : api.getMandatoryCode catName atName = some mc) :
    (getAttributeInfoPriv (some api) catName atName).map Prod.fst =
      some (if atName ∈ difficult_attributes then DType.string
        else if strContains tc "int" then DType.integer
        else if pt = "numb" then DType.float
        else DType.string) := by
  simp only [getAttributeInfoPriv, htc, hpt, hmc, Option.map_some]
  by_cases hd : atName ∈ difficult_attributes
  · simp [hd]
  · simp [hd]

/-- Witness for C2: the denylisted column name "pH" resolves to string even
though the dictionary declares an integer-family numeric type for it. -/
theorem getAttributeInfo_resolved_type_witness :
    (getAttributeInfoPriv (some intApi) "cat" "pH").map Prod.fst =
      some (if "pH" ∈ difficult_attributes then DType.string
        else if strContains "int" "int" then DType.integer
        else if "numb" = "numb" then DType.float
        else DType.string) :=
  getAttributeInfo_resolved_type intApi "cat" "pH" "int" "numb" "yes" rfl rfl rfl

/-- C3: the missing-value substitute is "." for mandatory and "?" for
optional columns whenever `useCifUnknowns` is set; otherwise it is the
caller-supplied default selected by the column's type, and a missing cell
receives that default verbatim — it is never cast to the column's type. -/
theorem missing_substitute_policy (p : PyPrims) (dt : DType) (m : Bool)
    (mvS mvI mvF : Val) :
    (computeMissing true mvS mvI mvF dt m =
      (if m then Val.vStr "." else Val.vStr "?")) ∧
    (computeMissing false mvS mvI mvF dt m =
      (if dt = DType.integer then mvI else if dt = DType.float then mvF else mvS)) ∧
    (∀ cell, isMissingCell cell = true →
      castCell p dt (computeMissing false mvS mvI mvF dt m) cell =
        (if dt = DType.integer then mvI else if dt = DType.float then mvF else mvS)) := by
  refine ⟨by simp [computeMissing], by cases dt <;> simp [computeMissing], ?_⟩
  intro cell hcell
  cases dt <;> simp [castCell, hcell, computeMissing]

/-- Witness for C3: with the reserved markers disabled, a missing integer
cell receives the caller-supplied default — here the string "7" — exactly as
supplied, not cast to an integer. -/
theorem missing_substitute_policy_witness :
    castCell simplePrims DType.integer
        (computeMissing false Val.vNone (Val.vStr "7") Val.vNone DType.integer true)
        Val.vNone =
      Val.vStr "7" :=
  (missing_substitute_policy simplePrims DType.integer true Val.vNone (Val.vStr "7")
    Val.vNone).2.2 Val.vNone (by decide)

/-- C4: when the row counts differ, `cmpAttributeValues` returns
(column, unequal) for every column of the column-name intersection, for every
raise setting, order setting and tolerance values, without inspecting any
cell values; the second conjunct characterises the intersection. -/
theorem cmp_rowcount_mismatch (dApi : Option DictionaryApi) (raiseExceptions : Bool)
    (self other : Table) (ignOrd : Bool) (rt abst : PyFloat)
    (h : self.data.length ≠ other.data.length) :
    cmpAttributeValues dApi raiseExceptions self other ignOrd rt abst =
      Except.ok ((atNameComList self other).map (fun a => (a, false))) ∧
    ∀ a, a ∈ atNameComList self other ↔
      (a ∈ self.attributeList ∧ a ∈ other.attributeList) := by
  constructor
  · simp [cmpAttributeValues, h]
  · intro a
    simp [atNameComList, List.mem_filter, List.mem_dedup]

/-- Witness for C4: one row versus zero rows. -/
theorem cmp_rowcount_mismatch_witness :
    cmpAttributeValues (some mixApi) true rcTblA rcTblB true
      (PyFloat.fin (1 / 100000)) (PyFloat.fin (1 / 10000)) =
      Except.ok [("aaa", false)] :=
  ((cmp_rowcount_mismatch (some mixApi) true rcTblA rcTblB true
    (PyFloat.fin (1 / 100000)) (PyFloat.fin (1 / 10000)) (by decide)).1).trans (by rfl)

/-- C5 (code bug): on the failing input — a single float-typed column and
zero rows, so the row counts agree and both value lists are empty — the
source reads the never-assigned loop variable `same` (UnboundLocalError):
with raiseExceptions unset the result is the empty list, with no entry at
all for the column, and with it set the call raises; the column never gets
the explicitly-defined equal result the specification requires. -/
theorem cmp_empty_float_column_unbound :
    atNameComList emptyFloatTable emptyFloatTable = ["val"] ∧
    cmpAttributeValues (some floatApi) false emptyFloatTable emptyFloatTable true
      (PyFloat.fin (1 / 100000)) (PyFloat.fin (1 / 10000)) = Except.ok [] ∧
    cmpAttributeValues (some floatApi) true emptyFloatTable emptyFloatTable true
      (PyFloat.fin (1 / 100000)) (PyFloat.fin (1 / 10000)) = Except.error () :=
  ⟨rfl, rfl, rfl⟩

/-- C6: a pair that is not both-missing, not Python-equal, and not a pair of
floats makes `__isClose` raise ValueError rather than return not-equal. -/
theorem isClose_incomparable_raises (aV bV : Val) (rt abst : PyFloat)
    (h1 : ¬(aV = Val.vNone ∧ bV = Val.vNone))
    (h2 : pyEq aV bV = false)
    (h3 : ∀ fa fb, ¬(aV = Val.vFloat fa ∧ bV = Val.vFloat fb)) :
    isClose aV bV rt abst = Except.error () := by
  unfold isClose
  rw [if_neg h1]
  rw [if_neg (by
    rintro ⟨-, -, hEq⟩
    rw [h2] at hEq
    exact Bool.false_ne_true hEq)]
  cases aV <;> cases bV <;> first
    | rfl
    | exact absurd ⟨rfl, rfl⟩ (h3 _ _)

/-- Witness for C6: an integer paired with a missing value. -/
theorem isClose_incomparable_raises_witness :
    isClose (Val.vInt 1) Val.vNone (PyFloat.fin (1 / 100000))
      (PyFloat.fin (1 / 10000)) = Except.error () :=
  isClose_incomparable_raises (Val.vInt 1) Val.vNone _ _ (by decide) (by decide)
    (by intro fa fb h; simp at h)

/-- C7 counterexample: NaN is a representable Python float (float("nan")),
and `__isClose(NaN, NaN, ..)` returns False — NaN is not equal to itself and
the tolerance inequality on NaN is false — so the claim fails at x = NaN. -/
theorem isClose_nan_self_not_close :
    isClose (Val.vFloat PyFloat.nan) (Val.vFloat PyFloat.nan)
      (PyFloat.fin (1 / 100000)) (PyFloat.fin (1 / 10000)) = Except.ok false ∧
    isClose (Val.vFloat PyFloat.nan) (Val.vFloat PyFloat.nan)
      (PyFloat.fin (1 / 100000)) (PyFloat.fin (1 / 10000)) ≠ Except.ok true :=
  ⟨rfl, fun h => Bool.false_ne_true (Except.ok.inj h)⟩

/-- C7 (amended): `__isClose(x, x, ..)` is true for every representable
float x other than NaN, for all tolerance values — the exact-equality branch
short-circuits before any tolerance arithmetic — and likewise for the
missing-value substitutes `None` and any string marker. -/
theorem isClose_refl_finite (q : ℚ) (s : String) (rt abst : PyFloat) :
    isClose (Val.vFloat (PyFloat.fin q)) (Val.vFloat (PyFloat.fin q)) rt abst =
      Except.ok true ∧
    isClose Val.vNone Val.vNone rt abst = Except.ok true ∧
    isClose (Val.vStr s) (Val.vStr s) rt abst = Except.ok true := by
  refine ⟨?_, by simp [isClose], ?_⟩
  · unfold isClose
    rw [if_neg (by rintro ⟨h, -⟩; cases h)]
    rw [if_pos ⟨by simp, by simp, by simp [pyEq, PyFloat.beq]⟩]
  · unfold isClose
    rw [if_neg (by rintro ⟨h, -⟩; cases h)]
    rw [if_pos ⟨by simp, by simp, by simp [pyEq]⟩]

/-- C8: `applyStringTypes` is idempotent — a second pass leaves the cell
contents and the recorded column types exactly as after the first pass.  The
two hypotheses record that Python `str` never renders a number as one of the
reserved markers "." / "?". -/
theorem applyStringTypes_idempotent (p : PyPrims) (dApi : Option DictionaryApi)
    (catName : String) (attrList : List String) (data : List (List Val))
    (typeD : String → Option DType)
    (hI : ∀ n, p.strOfInt n ≠ "." ∧ p.strOfInt n ≠ "?")
    (hF : ∀ f, p.strOfFloat f ≠ "." ∧ p.strOfFloat f ≠ "?") :
    (applyStringTypes p dApi catName attrList
        (applyStringTypes p dApi catName attrList data typeD).data
        (applyStringTypes p dApi catName attrList data typeD).typeD).data =
      (applyStringTypes p dApi catName attrList data typeD).data ∧
    (applyStringTypes p dApi catName attrList
        (applyStringTypes p dApi catName attrList data typeD).data
        (applyStringTypes p dApi catName attrList data typeD).typeD).typeD =
      (applyStringTypes p dApi catName attrList data typeD).typeD := by
  have hnd : (attrList.enum.map Prod.fst).Nodup := by
    rw [List.enum_map_fst]
    exact List.nodup_range _
  constructor
  · simp only [applyStringTypes, applyStringTypesGo_data]
    exact stringPassData_idem p _ hI hF attrList.enum data hnd
  · simp only [applyStringTypes, applyStringTypesGo_typeD]
    funext x
    by_cases hx : x ∈ stringPassNames (getAttributeInfoPriv dApi catName) attrList.enum
    · simp [hx]
    · simp [hx]

/-- Witness for C8: a one-column, one-cell integer table. -/
theorem applyStringTypes_idempotent_witness :
    (applyStringTypes simplePrims (some intApi) "cat" ["num"]
        (applyStringTypes simplePrims (some intApi) "cat" ["num"]
          [[Val.vInt 5]] (fun _ => none)).data
        (applyStringTypes simplePrims (some intApi) "cat" ["num"]
          [[Val.vInt 5]] (fun _ => none)).typeD).data =
      (applyStringTypes simplePrims (some intApi) "cat" ["num"]
        [[Val.vInt 5]] (fun _ => none)).data ∧
    (applyStringTypes simplePrims (some intApi) "cat" ["num"]
        (applyStringTypes simplePrims (some intApi) "cat" ["num"]
          [[Val.vInt 5]] (fun _ => none)).data
        (applyStringTypes simplePrims (some intApi) "cat" ["num"]
          [[Val.vInt 5]] (fun _ => none)).typeD).typeD =
      (applyStringTypes simplePrims (some intApi) "cat" ["num"]
        [[Val.vInt 5]] (fun _ => none)).typeD :=
  applyStringTypes_idempotent simplePrims (some intApi) "cat" ["num"] [[Val.vInt 5]]
    (fun _ => none)
    (fun n => show ("N" : String) ≠ "." ∧ ("N" : String) ≠ "?" from ⟨by decide, by decide⟩)
    (fun f => show ("F" : String) ≠ "." ∧ ("F" : String) ≠ "?" from ⟨by decide, by decide⟩)

/-- C9: the public `getAttributeInfo` is total (never raises) and degrades
every private-lookup failure — including the absence of a dictionary API —
to the explicit pair (None, None). -/
theorem getAttributeInfo_failure_none (dApi : Option DictionaryApi)
    (catName atName : String)
    (h : getAttributeInfoPriv dApi catName atName = none) :
    getAttributeInfo dApi catName atName = (none, none) := by
  simp [getAttributeInfo, h]

/-- Witness for C9: no dictionary API supplied at construction. -/
theorem getAttributeInfo_failure_none_witness :
    getAttributeInfo none "cat" "num" = (none, none) :=
  getAttributeInfo_failure_none none "cat" "num" rfl

/-- C10: with equal row counts, raiseExceptions disabled, and an exception
striking at some shared column (a ValueError from `__isClose`, a failed
schema lookup, or reading the never-assigned `same`), `cmpAttributeValues`
returns exactly the partial list accumulated for the columns processed
before the failure — their names in order are the processed prefix, with no
entry for the failing or remaining columns and no error indication. -/
theorem cmp_partial_result_on_error (dApi : Option DictionaryApi)
    (self other : Table) (ignOrd : Bool) (rt abst : PyFloat)
    (pre post : List String) (c : String) (s0 : Option Bool)
    (rL0 : List (String × Bool))
    (hlen : self.data.length = other.data.length)
    (hcom : atNameComList self other = pre ++ c :: post)
    (hpre : cmpLoop dApi self other ignOrd rt abst pre none [] = (s0, rL0, false))
    (hfail : cmpColumn dApi self other ignOrd rt abst s0 c = Except.error () ∨
      cmpColumn dApi self other ignOrd rt abst s0 c = Except.ok none) :
    cmpAttributeValues dApi false self other ignOrd rt abst = Except.ok rL0 ∧
    rL0.map Prod.fst = pre := by
  have hnames : rL0.map Prod.fst = pre := by
    have h := cmpLoop_names dApi self other ignOrd rt abst pre none [] s0 rL0 hpre
    simpa using h
  refine ⟨?_, hnames⟩
  unfold cmpAttributeValues
  rw [if_pos hlen, hcom]
  rw [cmpLoop_append dApi self other ignOrd rt abst pre (c :: post) none [] s0 rL0 hpre]
  rcases hfail with hf | hf
  · simp [cmpLoop, hf]
  · simp [cmpLoop, hf]

/-- Witness for C10: the string column "aaa" compares equal, then the float
column "bbb" holds the incomparable pair (".", "?") and `__isClose` raises;
the partial list holds exactly the entry for "aaa". -/
theorem cmp_partial_result_on_error_witness :
    cmpAttributeValues (some mixApi) false cmpTblA cmpTblB true
      (PyFloat.fin (1 / 100000)) (PyFloat.fin (1 / 10000)) =
      Except.ok [("aaa", true)] ∧
    ([("aaa", true)] : List (String × Bool)).map Prod.fst = ["aaa"] :=
  cmp_partial_result_on_error (some mixApi) cmpTblA cmpTblB true
    (PyFloat.fin (1 / 100000)) (PyFloat.fin (1 / 10000)) ["aaa"] [] "bbb"
    (some true) [("aaa", true)] rfl rfl rfl (Or.inl rfl)
